import Mathlib

/-!
Shallow embedding of the optimization layer of the RAG system
(prompt cache, context memory store, persistent vector store, and the
orchestrator in `optimized_rag.py`), together with theorems settling the
frozen claims C1-C10 about it.

Modelling conventions:
* SQLite tables are lists of row structures; each database operation is a
  pure function from the old table(s) to the new table(s) plus its returned
  value.  `CURRENT_TIMESTAMP` is threaded in as an explicit `now : Nat`.
* SHA-256 (`_hash_text`) and MD5 (`_get_file_hash`) are modelled as a
  function parameter `hash : String → String`; theorems that need
  collision-freeness assume `Function.Injective hash`.
* Floating point numbers are modelled as real numbers (embeddings,
  similarity scores) or rationals (confidence scores, which are only ever
  compared and copied).
* The embedding provider and the model provider are exogenous: their
  outcomes are parameters.  `embed_with_openrouter` returns `[]` on failure
  (exactly as in the source, where the failure value is the empty list);
  the non-streaming chat call returns a string that starts with `"Error"`
  on failure and the streaming call yields such a string as an ordinary
  token (again as in the source, where exceptions are caught and converted
  to exactly those values).
-/

namespace RagSpec

/-! ## Generic helpers -/

/-- Accumulation of streamed tokens, as in `full_response = ""` followed by
`full_response += token` in `answer_with_optimization_stream`. -/
def concatTokens (tokens : List String) : String :=
  tokens.foldl (· ++ ·) ""

/-! ## Cosine similarity (`embedding.py`, `cosine_similarity`) -/

/-- Model of `np.dot` of two vectors given as lists. -/
def dotList (v1 v2 : List ℝ) : ℝ :=
  (List.zipWith (· * ·) v1 v2).sum

/-- Sum of squares of the entries; `np.linalg.norm v = Real.sqrt (sumSq v)`. -/
def sumSq (v : List ℝ) : ℝ :=
  (v.map (fun x => x * x)).sum

/-- Model of `cosine_similarity(vec1, vec2)` from `embedding.py`: the division by the
product of the Euclidean norms is guarded by a zero-norm check that returns
`0.0`. -/
noncomputable def cosine_similarity (v1 v2 : List ℝ) : ℝ :=
  let dot_product := dotList v1 v2
  let norm1 := Real.sqrt (sumSq v1)
  let norm2 := Real.sqrt (sumSq v2)
  if norm1 = 0 ∨ norm2 = 0 then 0 else dot_product / (norm1 * norm2)

/-! ## Chunking loop of `build_from_folder` (`vector_store_manager.py`) -/

/-- Constant `chunk_size = 1000  # characters per chunk (approximate)` -/
def chunk_size : ℕ := 1000

/-- Constant `chunk_overlap = 200  # overlap between chunks` -/
def chunk_overlap : ℕ := 200

/-- The `while start < text_len` loop of `build_from_folder`, producing the
overlapping windows `text[start:end]` with
`start = end - chunk_overlap if end < text_len else end`.  The recursion is
well-founded because the overlap is strictly smaller than the window. -/
def chunkFrom (size overlap : ℕ) (hlt : overlap < size) (text : List Char)
    (start : ℕ) : List (List Char) :=
  if h : start < text.length then
    let e := min (start + size) text.length
    let chunk := (text.drop start).take (e - start)
    if he : e < text.length then
      chunk :: chunkFrom size overlap hlt text (e - overlap)
    else
      chunk :: chunkFrom size overlap hlt text e
  else
    []
termination_by text.length - start
decreasing_by
  all_goals omega

/-- Document chunking exactly as configured in `build_from_folder`. -/
def makeChunks (text : List Char) : List (List Char) :=
  chunkFrom chunk_size chunk_overlap (by decide) text 0

/-- Reassembly of overlapping windows: the first chunk contributes in full
and every later chunk contributes everything past its overlap. -/
def joinWithOverlap (overlap : ℕ) : List (List Char) → List Char
  | [] => []
  | c :: cs => c ++ (cs.map (List.drop overlap)).flatten

/-! ## Exact-match prompt cache (`prompt_cache.py`)

The `cached_prompts` table.  Crucially, the schema declares
`query_hash TEXT UNIQUE NOT NULL` and `context_hash TEXT NOT NULL`:
the uniqueness constraint is on the query hash alone, and inserting a
`NULL` context hash raises `sqlite3.IntegrityError`.  Timestamp defaults
(`created_at`, `last_accessed`) are materialised from the `now` argument;
`access_count` defaults to `1`. -/

structure CachedPrompt where
  query_hash : String
  query : String
  /-- Column `context_hash` as the insert attempts to bind it: `none` models the
  Python `None` produced when the context argument is falsy.  The schema's
  `NOT NULL` constraint means rows with `none` are never actually stored. -/
  context_hash : Option String
  context : String
  response : String
  model_id : String
  tokens_saved : ℕ
  created_at : ℕ
  last_accessed : ℕ
  access_count : ℕ
deriving DecidableEq, Repr

/-- The value returned by `get_cached_response` on a hit (the `access_count`
is the value selected before the bookkeeping `UPDATE`). -/
structure CacheHit where
  response : String
  tokens_saved : ℕ
  access_count : ℕ
  cached : Bool
deriving DecidableEq, Repr

/-- Model of `PromptCache.cache_response`.  Python computes
`context_hash = _hash_text(context) if context else None`; the `INSERT`
fails with `IntegrityError` (returning `False`, leaving the table
unchanged) when `context_hash` is `NULL` (`NOT NULL` constraint) or when a
row with the same `query_hash` already exists (`UNIQUE` constraint). -/
def cache_response (hash : String → String) (table : List CachedPrompt)
    (query context response model_id : String) (tokens_saved : ℕ) (now : ℕ) :
    List CachedPrompt × Bool :=
  let query_hash := hash query
  let context_hash : Option String := if context = "" then none else some (hash context)
  if context_hash = none ∨ table.any (fun r => r.query_hash == query_hash) then
    (table, false)
  else
    (table ++ [{ query_hash := query_hash, query := query,
                 context_hash := context_hash, context := context,
                 response := response, model_id := model_id,
                 tokens_saved := tokens_saved, created_at := now,
                 last_accessed := now, access_count := 1 }], true)

/-- Model of `PromptCache.get_cached_response`.  With a truthy context the lookup is
by `(query_hash, context_hash)`; with a falsy context it is by `query_hash`
alone.  On a hit the bookkeeping `UPDATE ... WHERE query_hash = ?` bumps
`access_count` and refreshes `last_accessed` (the update is keyed on the
query hash only, exactly as in the source). -/
def get_cached_response (hash : String → String) (table : List CachedPrompt)
    (query context : String) (now : ℕ) :
    List CachedPrompt × Option CacheHit :=
  let query_hash := hash query
  let context_hash : Option String := if context = "" then none else some (hash context)
  let result : Option CachedPrompt := match context_hash with
    | some ch => table.find? (fun r => r.query_hash == query_hash && r.context_hash == some ch)
    | none => table.find? (fun r => r.query_hash == query_hash)
  match result with
  | some r =>
      (table.map (fun row => if row.query_hash == query_hash then
          { row with last_accessed := now, access_count := row.access_count + 1 }
        else row),
       some { response := r.response, tokens_saved := r.tokens_saved,
              access_count := r.access_count, cached := true })
  | none => (table, none)

/-- A row of the `context_chunks` table.  The chunk metadata is the JSON
object `{"source": filename, "score": score}` the orchestrator stores,
modelled by its two payload fields. -/
structure ChunkRow where
  chunk_hash : String
  chunk_content : String
  chunk_metadata : Option (String × ℝ)
  reuse_count : ℕ

/-- Model of `PromptCache.cache_context_chunk`: insert keyed on the content hash;
on the `UNIQUE` violation bump `reuse_count` instead. -/
def cache_context_chunk (hash : String → String) (table : List ChunkRow)
    (content : String) (metadata : Option (String × ℝ)) : List ChunkRow :=
  let chunk_hash := hash content
  if table.any (fun r => r.chunk_hash == chunk_hash) then
    table.map (fun r => if r.chunk_hash == chunk_hash then
        { r with reuse_count := r.reuse_count + 1 }
      else r)
  else
    table ++ [{ chunk_hash := chunk_hash, chunk_content := content,
                chunk_metadata := metadata, reuse_count := 1 }]

/-- Model of `PromptCache.clear_cache(older_than_days)`: with a truthy argument only
old prompt rows are deleted; with `None` (modelled `none`) both tables are
emptied. -/
def clear_cache (tables : List CachedPrompt × List ChunkRow)
    (older_than : Option ℕ) (now : ℕ) : List CachedPrompt × List ChunkRow :=
  match older_than with
  | some d => ((tables.1.filter (fun r => ¬ (r.created_at < now - d))), tables.2)
  | none => ([], [])

/-- States of the `cached_prompts` table reachable through the operations
of `PromptCache`, starting from the empty table created by `_init_db`. -/
inductive PCReach (hash : String → String) : List CachedPrompt → Prop where
  | init : PCReach hash []
  | put (table : List CachedPrompt) (query context response model_id : String)
      (tokens_saved now : ℕ) (h : PCReach hash table) :
      PCReach hash (cache_response hash table query context response model_id tokens_saved now).1
  | get (table : List CachedPrompt) (query context : String) (now : ℕ)
      (h : PCReach hash table) :
      PCReach hash (get_cached_response hash table query context now).1
  | clear (table : List CachedPrompt) (chunks : List ChunkRow)
      (older_than : Option ℕ) (now : ℕ) (h : PCReach hash table) :
      PCReach hash (clear_cache (table, chunks) older_than now).1

/-! ## Context memory store (`context_memory.py`)

The `context_memory` table carries `UNIQUE(query_hash, context_hash)`.
The orchestrator's stored metadata `{"source", "retrieved_docs",
"past_contexts_used"}` is modelled by its three payload fields. -/

structure MemoryRow where
  id : ℕ
  query_hash : String
  query : String
  context_hash : String
  context : String
  response : String
  metadata : Option (String × ℕ × ℕ)
  tags : List String
  created_at : ℕ
  last_accessed : ℕ
  access_count : ℕ
  confidence_score : ℚ
  model_id : Option String
deriving DecidableEq, Repr

/-- The `ContextMemory` dataclass rows are converted into before being
returned (it drops the hash and model columns). -/
structure ContextMemory where
  id : ℕ
  query : String
  context : String
  response : String
  metadata : Option (String × ℕ × ℕ)
  tags : List String
  created_at : ℕ
  last_accessed : ℕ
  access_count : ℕ
  confidence_score : ℚ
deriving DecidableEq, Repr

def MemoryRow.toContextMemory (r : MemoryRow) : ContextMemory :=
  { id := r.id, query := r.query, context := r.context, response := r.response,
    metadata := r.metadata, tags := r.tags, created_at := r.created_at,
    last_accessed := r.last_accessed, access_count := r.access_count,
    confidence_score := r.confidence_score }

/-- The next `AUTOINCREMENT` row id. -/
def nextId (table : List MemoryRow) : ℕ :=
  (table.map (fun r => r.id)).foldl max 0 + 1

/-- Model of `ContextMemoryStore.store_context`: insert keyed by
`(query_hash, context_hash)`; on the `UNIQUE` violation bump
`access_count` and refresh `last_accessed` instead, returning the id of
the existing row. -/
def store_context (hash : String → String) (table : List MemoryRow)
    (query context response : String) (metadata : Option (String × ℕ × ℕ))
    (tags : List String) (confidence_score : ℚ) (model_id : Option String)
    (now : ℕ) : List MemoryRow × ℕ :=
  let query_hash := hash query
  let context_hash := hash context
  if table.any (fun r => r.query_hash == query_hash && r.context_hash == context_hash) then
    let updated := table.map (fun r =>
      if r.query_hash == query_hash && r.context_hash == context_hash then
        { r with access_count := r.access_count + 1, last_accessed := now }
      else r)
    (updated,
     match updated.find? (fun r => r.query_hash == query_hash && r.context_hash == context_hash) with
     | some r => r.id
     | none => 0)
  else
    let id := nextId table
    (table ++ [{ id := id, query_hash := query_hash, query := query,
                 context_hash := context_hash, context := context,
                 response := response, metadata := metadata, tags := tags,
                 created_at := now, last_accessed := now, access_count := 1,
                 confidence_score := confidence_score, model_id := model_id }],
     id)

/-- Model of `ORDER BY ... LIMIT ?` as a stable sort followed by a prefix, the
model of a SQLite `SELECT` with ordering and limit. -/
def topBy {α : Type} (le : α → α → Bool) (l : List α) (limit : ℕ) : List α :=
  (l.mergeSort le).take limit

/-- Model of `ORDER BY access_count DESC, confidence_score DESC` as a `Bool`-valued
"comes no later than" relation. -/
def leAccessConf (a b : MemoryRow) : Bool :=
  decide (b.access_count < a.access_count ∨
    (a.access_count = b.access_count ∧ b.confidence_score ≤ a.confidence_score))

/-- Model of `ORDER BY last_accessed DESC, access_count DESC`. -/
def leRecency (a b : MemoryRow) : Bool :=
  decide (b.last_accessed < a.last_accessed ∨
    (a.last_accessed = b.last_accessed ∧ b.access_count ≤ a.access_count))

/-- The first `SELECT` of `retrieve_similar_contexts`: exact query-hash
match above the confidence floor. -/
def exactBranch (hash : String → String) (table : List MemoryRow)
    (query : String) (limit : ℕ) (min_confidence : ℚ) : List MemoryRow :=
  topBy leAccessConf
    (table.filter (fun r => r.query_hash == hash query && decide (min_confidence ≤ r.confidence_score)))
    limit

/-- The fallback `SELECT` of `retrieve_similar_contexts`: most recently
accessed entries above the confidence floor. -/
def fallbackBranch (table : List MemoryRow) (limit : ℕ)
    (min_confidence : ℚ) : List MemoryRow :=
  topBy leRecency
    (table.filter (fun r => decide (min_confidence ≤ r.confidence_score)))
    limit

/-- Model of `ContextMemoryStore.retrieve_similar_contexts`, before the conversion
to `ContextMemory` values: the exact-match query, falling back to the
recency query when the first result set is empty. -/
def retrieveSimilarRows (hash : String → String) (table : List MemoryRow)
    (query : String) (limit : ℕ) (min_confidence : ℚ) : List MemoryRow :=
  let results := exactBranch hash table query limit min_confidence
  if results.isEmpty then fallbackBranch table limit min_confidence else results

/-- Model of `ContextMemoryStore.retrieve_similar_contexts`. -/
def retrieve_similar_contexts (hash : String → String) (table : List MemoryRow)
    (query : String) (limit : ℕ) (min_confidence : ℚ) : List ContextMemory :=
  (retrieveSimilarRows hash table query limit min_confidence).map MemoryRow.toContextMemory

/-- Model of `ContextMemoryStore.cleanup_old_contexts`: delete rows strictly older
than the threshold AND with `access_count` below the fixed low-usage
threshold `5`. -/
def cleanup_old_contexts (table : List MemoryRow) (days : ℕ) (now : ℕ) :
    List MemoryRow :=
  table.filter (fun r => ¬ (r.created_at < now - days ∧ r.access_count < 5))

/-! ## Persistent vector store (`vector_store_manager.py`) -/

/-- An entry of the vector store (a chunk with its embedding).  The
`timestamp` bookkeeping field of the source entry is omitted: it is never
read. -/
structure Entry where
  filename : String
  source : String
  content : String
  embedding : List ℝ

/-- The persistent state of `VectorStoreManager`: the metadata file
(per-file hash map and embedding-model id), the pickled vector file, and
the in-memory `self.store`. -/
structure VSState where
  files : List (String × String)
  model_id : Option String
  vectorsExist : Bool
  cachedStore : List Entry
  store : List Entry

def emptyVS : VSState :=
  { files := [], model_id := none, vectorsExist := false, cachedStore := [], store := [] }

/-- Test `filename.endswith(('.txt', '.pdf', '.docx'))`. -/
def supportedFile (filename : String) : Bool :=
  filename.endsWith ".txt" || filename.endsWith ".pdf" || filename.endsWith ".docx"

/-- The fresh per-file hash map computed by `_is_cache_valid` from the
folder listing (a folder is modelled as its listing: a list of
`(filename, file content)` pairs). -/
def currentFiles (hashFile : String → String) (folder : List (String × String)) :
    List (String × String) :=
  (folder.filter (fun f => supportedFile f.1)).map (fun f => (f.1, hashFile f.2))

/-- Python `dict` equality on hash maps represented as association lists:
the same keys with the same values, irrespective of order. -/
def dictEq (m1 m2 : List (String × String)) : Bool :=
  m1.all (fun kv => m2.lookup kv.1 == some kv.2) &&
  m2.all (fun kv => m1.lookup kv.1 == some kv.2)

/-- Model of `VectorStoreManager._is_cache_valid`. -/
def is_cache_valid (hashFile : String → String) (st : VSState)
    (folder : List (String × String)) (embed_model_id : String) : Bool :=
  st.vectorsExist && (st.model_id == some embed_model_id) &&
  dictEq (currentFiles hashFile folder) st.files

/-- The chunks of one document in `build_from_folder`, as strings. -/
def docChunks (text : String) : List String :=
  (makeChunks text.toList).map (fun l => String.mk l)

/-- The chunk names `f"{filename}__chunk_{chunk_index}"`. -/
def chunkName (filename : String) (index : ℕ) : String :=
  filename ++ "__chunk_" ++ toString index

/-- The store built from scratch by the rebuild path of
`build_from_folder`: for every supported document with non-empty content,
every chunk is embedded and appended when the embedding call succeeds
(a failed call, returning `[]`, skips only that chunk). -/
def rebuildStore (embed : String → String → List ℝ)
    (folder : List (String × String)) (embed_model_id : String) : List Entry :=
  ((folder.filter (fun f => supportedFile f.1)).map (fun f =>
    if f.2 = "" then []
    else ((docChunks f.2).enum.filterMap (fun ci =>
      let e := embed embed_model_id ci.2
      if e.isEmpty then none
      else some { filename := chunkName f.1 ci.1, source := f.1,
                  content := ci.2, embedding := e })))).flatten

/-- The number of embedding-provider calls the rebuild path performs:
one per chunk of every supported, non-empty document. -/
def rebuildEmbedCalls (folder : List (String × String)) : ℕ :=
  ((folder.filter (fun f => supportedFile f.1)).map (fun f =>
    if f.2 = "" then 0 else (docChunks f.2).length)).sum

/-- The per-file hash map the rebuild path stores in the metadata. -/
def rebuildFileHashes (hashFile : String → String)
    (folder : List (String × String)) : List (String × String) :=
  (folder.filter (fun f => supportedFile f.1)).map (fun f => (f.1, hashFile f.2))

/-- The vector-store state after a rebuild. -/
def rebuildState (hashFile : String → String) (embed : String → String → List ℝ)
    (folder : List (String × String)) (embed_model_id : String) : VSState :=
  { files := rebuildFileHashes hashFile folder,
    model_id := some embed_model_id,
    vectorsExist := true,
    cachedStore := rebuildStore embed folder embed_model_id,
    store := rebuildStore embed folder embed_model_id }

/-- Model of `VectorStoreManager.build_from_folder`: return the cached chunk set
when `_is_cache_valid`, otherwise rebuild everything.  Returns the new
state, the returned chunk set and the number of embedding calls made. -/
def build_from_folder (hashFile : String → String)
    (embed : String → String → List ℝ) (st : VSState)
    (folder : List (String × String)) (embed_model_id : String) :
    VSState × List Entry × ℕ :=
  if is_cache_valid hashFile st folder embed_model_id then
    ({ st with store := st.cachedStore }, st.cachedStore, 0)
  else
    (rebuildState hashFile embed folder embed_model_id,
     rebuildStore embed folder embed_model_id,
     rebuildEmbedCalls folder)

/-- Model of `ORDER BY` score descending for search results
`(filename, score, content)` — `scored.sort(key=lambda x: x[1], reverse=True)`,
a stable descending sort. -/
noncomputable def searchLE (a b : String × ℝ × String) : Bool :=
  decide (b.2.1 ≤ a.2.1)

/-- The scored list `semantic_search` builds before sorting. -/
noncomputable def scoredOf (q : List ℝ) (store : List Entry) :
    List (String × ℝ × String) :=
  store.map (fun e => (e.filename, cosine_similarity q e.embedding, e.content))

/-- Model of `VectorStoreManager.semantic_search`: embed the query (failure is the
empty list, which is falsy), score every entry by cosine similarity, sort
by score descending (Python's sort is stable) and keep the first `top_k`. -/
noncomputable def semantic_search (embed : String → String → List ℝ)
    (store : List Entry) (query_text embed_model_id : String) (top_k : ℕ) :
    List (String × ℝ × String) :=
  let query_embedding := embed embed_model_id query_text
  if query_embedding.isEmpty then []
  else topBy searchLE (scoredOf query_embedding store) top_k

/-- Model of `VectorStoreManager.clear_cache`. -/
def vs_clear_cache (_st : VSState) : VSState := emptyVS

/-! ## Optimization orchestrator (`optimized_rag.py`) -/

/-- The external collaborators `OptimizedRAG` depends on: the text hash
used by all three stores, the embedding provider, and the float formatting
`f"{score:.2%}"` used in the assembled context. -/
structure Ctx where
  hash : String → String
  embed : String → String → List ℝ
  fmtPercent : ℚ → String

/-- The combined persistent state of the orchestrator: the two prompt-cache
tables, the context-memory table, and the vector store. -/
structure RAGState where
  prompts : List CachedPrompt
  chunks : List ChunkRow
  memory : List MemoryRow
  vs : VSState

/-- The `stats` dictionary threaded through an answer call. -/
structure Stats where
  cache_hit : Bool := false
  memory_reused : Bool := false
  contexts_retrieved : ℕ := 0
  tokens_saved : ℕ := 0
  optimization_source : List String := []
  streaming : Bool := false
deriving DecidableEq, Repr

/-- The dictionary returned by `answer_with_optimization` (the three
return shapes of the source are merged; absent keys default to `false`). -/
structure AnswerResult where
  response : String
  stats : Stats
  from_cache : Bool := false
  from_memory : Bool := false
  error : Bool := false
deriving DecidableEq, Repr

/-- The keyword-category table of `_extract_tags`. -/
def tagKeywords : List (String × List String) :=
  [("implementation", ["how", "build", "create", "develop"]),
   ("explanation", ["what", "explain", "describe", "why"]),
   ("troubleshooting", ["error", "bug", "fix", "issue", "problem"]),
   ("design", ["architecture", "design", "pattern", "structure"])]

/-- Python's substring test `word in text`. -/
def containsWord (text word : String) : Bool :=
  decide (List.IsInfix word.toList text.toList)

/-- Model of `OptimizedRAG._extract_tags`: matched category labels in
table-declaration order, at most three kept. -/
def extract_tags (question : String) : List String :=
  let question_lower := question.toLower
  ((tagKeywords.filter (fun kv => kv.2.any (fun w => containsWord question_lower w))).map
    (fun kv => kv.1)).take 3

/-- Count `len(combined_context.split())`: Python's whitespace split drops empty
pieces. -/
def wordCount (s : String) : ℕ :=
  ((s.split (fun c => c.isWhitespace)).filter (fun w => ¬ (w = ""))).length

/-- Estimate `estimated_tokens_saved = len(combined_context.split()) // 4`. -/
def estimatedTokensSaved (combined_context : String) : ℕ :=
  wordCount combined_context / 4

/-- The memory part of `context_parts`. -/
def memoryContextParts (fmtPercent : ℚ → String) (past : List ContextMemory) :
    List String :=
  (past.map (fun p =>
    ["[Memory - Confidence: " ++ fmtPercent p.confidence_score ++ "]", p.response, ""])).flatten

/-- The retrieved-documents part of `context_parts`. -/
def docContextParts (retrieved : List (String × ℝ × String)) : List String :=
  (retrieved.map (fun r => ["[Document: " ++ r.1 ++ "]", r.2.2, ""])).flatten

/-- Assembly `combined_context = "\n".join(context_parts)`. -/
def buildCombinedContext (fmtPercent : ℚ → String) (past : List ContextMemory)
    (retrieved : List (String × ℝ × String)) : String :=
  String.intercalate "\n" (memoryContextParts fmtPercent past ++ docContextParts retrieved)

/-- The loop caching every retrieved chunk via `cache_context_chunk` with
metadata `{"source": filename, "score": score}`. -/
def cacheRetrievedChunks (hash : String → String) (chunks : List ChunkRow)
    (retrieved : List (String × ℝ × String)) : List ChunkRow :=
  retrieved.foldl (fun cs r => cache_context_chunk hash cs r.2.2 (some (r.1, r.2.1))) chunks

/-- Heuristic `confidence_score = 0.85 if len(retrieved_results) > 0 else 0.5`. -/
def confOf (retrieved : List (String × ℝ × String)) : ℚ :=
  if 0 < retrieved.length then 17/20 else 1/2

/-- Python's `str.startswith`, as a character-prefix test. -/
def strStartsWith (s prefixStr : String) : Bool :=
  prefixStr.toList.isPrefixOf s.toList

/-- Model of `OptimizedRAG._invoke_model_with_context`.  The provider outcome is
exogenous (`provider_response`); both a caught exception and a returned
string starting with `"Error"` surface as `None`, modelled as the
`startswith("Error")` test on the provider outcome. -/
def invoke_model_with_context (provider_response : String) : Option String :=
  if strStartsWith provider_response "Error" then none else some provider_response

/-- Model of `OptimizedRAG._invoke_model_with_context_stream`.  The provider's token
stream is exogenous; a provider failure appears inside the stream as an
ordinary `"Error: ..."` token (exactly what `invoke_model_stream` and the
`except` clause yield), so the generator itself never raises. -/
def invoke_model_with_context_stream (provider_stream : List String) : List String :=
  provider_stream

/-- The memory exact-match test
`past_ctx.query.strip().lower() == user_question.strip().lower()`. -/
def exactMemMatch (question : String) (p : ContextMemory) : Bool :=
  p.query.trim.toLower == question.trim.toLower

/-- Model of `OptimizedRAG.answer_with_optimization`.  The model provider's
(deterministic) outcome for the assembled messages is the exogenous
`provider_response`. -/
noncomputable def answer_with_optimization (C : Ctx) (st : RAGState)
    (model_id user_question embed_model_id : String) (provider_response : String)
    (use_cache store_memory retrieve_past_contexts : Bool) (now : ℕ) :
    RAGState × AnswerResult :=
  let stats0 : Stats := {}
  let cacheRes := if use_cache then get_cached_response C.hash st.prompts user_question "" now
    else (st.prompts, none)
  match cacheRes.2 with
  | some hit =>
      ({ st with prompts := cacheRes.1 },
       { response := hit.response,
         stats := { stats0 with
                    cache_hit := true,
                    tokens_saved := hit.tokens_saved,
                    optimization_source := stats0.optimization_source ++ ["prompt_cache"] },
         from_cache := true })
  | none =>
    let past := if retrieve_past_contexts then
        retrieve_similar_contexts C.hash st.memory user_question 3 0
      else []
    let stats1 := if past.isEmpty then stats0
      else { stats0 with
             memory_reused := true,
             optimization_source := stats0.optimization_source ++ ["context_memory"] }
    match past.find? (exactMemMatch user_question) with
    | some m =>
        ({ st with prompts := cacheRes.1 },
         { response := m.response, stats := stats1, from_memory := true })
    | none =>
      let retrieved := semantic_search C.embed st.vs.store user_question embed_model_id 3
      let stats2 := { stats1 with contexts_retrieved := retrieved.length }
      let combined_context := buildCombinedContext C.fmtPercent past retrieved
      let chunks1 := cacheRetrievedChunks C.hash st.chunks retrieved
      match invoke_model_with_context provider_response with
      | none =>
          ({ st with prompts := cacheRes.1, chunks := chunks1 },
           { response := "Error generating response", stats := stats2, error := true })
      | some response =>
          let cacheStep : List CachedPrompt × Stats := if use_cache then
              let est := estimatedTokensSaved combined_context
              ((cache_response C.hash cacheRes.1 user_question combined_context response
                  model_id est now).1,
               { stats2 with
                 tokens_saved := est,
                 optimization_source := stats2.optimization_source ++ ["newly_cached"] })
            else (cacheRes.1, stats2)
          let memStep : List MemoryRow × Stats := if store_memory then
              ((store_context C.hash st.memory user_question combined_context response
                  (some ("optimized_rag", retrieved.length, past.length))
                  (extract_tags user_question) (confOf retrieved) (some model_id) now).1,
               { cacheStep.2 with
                 optimization_source := cacheStep.2.optimization_source ++ ["memory_stored"] })
            else (st.memory, cacheStep.2)
          ({ st with prompts := cacheStep.1, chunks := chunks1, memory := memStep.1 },
           { response := response, stats := memStep.2, from_cache := false })

/-- Model of `OptimizedRAG.answer_with_optimization_stream`, modelled as the list of
`(token, stats)` pairs yielded across the whole generator run plus the
final state (the write-back after the token loop included). -/
noncomputable def answer_with_optimization_stream (C : Ctx) (st : RAGState)
    (model_id user_question embed_model_id : String) (provider_stream : List String)
    (use_cache store_memory retrieve_past_contexts : Bool) (now : ℕ) :
    RAGState × List (String × Stats) :=
  let stats0 : Stats := { streaming := true }
  let cacheRes := if use_cache then get_cached_response C.hash st.prompts user_question "" now
    else (st.prompts, none)
  match cacheRes.2 with
  | some hit =>
      let statsHit := { stats0 with
                        cache_hit := true,
                        tokens_saved := hit.tokens_saved,
                        optimization_source := stats0.optimization_source ++ ["prompt_cache"] }
      ({ st with prompts := cacheRes.1 },
       hit.response.toList.map (fun c => (String.singleton c, statsHit)))
  | none =>
    let past := if retrieve_past_contexts then
        retrieve_similar_contexts C.hash st.memory user_question 3 0
      else []
    let stats1 := if past.isEmpty then stats0
      else { stats0 with
             memory_reused := true,
             optimization_source := stats0.optimization_source ++ ["context_memory"] }
    match past.find? (exactMemMatch user_question) with
    | some m =>
        ({ st with prompts := cacheRes.1 },
         m.response.toList.map (fun c => (String.singleton c, stats1)))
    | none =>
      let retrieved := semantic_search C.embed st.vs.store user_question embed_model_id 3
      let stats2 := { stats1 with contexts_retrieved := retrieved.length }
      let combined_context := buildCombinedContext C.fmtPercent past retrieved
      let chunks1 := cacheRetrievedChunks C.hash st.chunks retrieved
      let tokens := invoke_model_with_context_stream provider_stream
      let full_response := concatTokens tokens
      let yields := tokens.map (fun t => (t, stats2))
      let prompts2 := if use_cache then
          (cache_response C.hash cacheRes.1 user_question combined_context full_response
            model_id (estimatedTokensSaved combined_context) now).1
        else cacheRes.1
      let memory2 := if store_memory then
          (store_context C.hash st.memory user_question combined_context full_response
            (some ("optimized_rag_stream", retrieved.length, past.length))
            (extract_tags user_question) (confOf retrieved) (some model_id) now).1
        else st.memory
      ({ st with prompts := prompts2, chunks := chunks1, memory := memory2 }, yields)

/-- Model of `OptimizedRAG.clear_all_caches`: clear the vector cache, clear the
whole prompt cache, and run the memory retention sweep with `days=0`. -/
def clear_all_caches (st : RAGState) (now : ℕ) : RAGState :=
  { prompts := (clear_cache (st.prompts, st.chunks) none now).1,
    chunks := (clear_cache (st.prompts, st.chunks) none now).2,
    memory := cleanup_old_contexts st.memory 0 now,
    vs := vs_clear_cache st.vs }

/-- A collaborator bundle for concrete evaluations: the identity text hash,
an embedding provider that always fails (returns the empty vector), and a
trivial percent formatter. -/
def ctxNoEmbed : Ctx :=
  { hash := fun s => s, embed := fun _ _ => [], fmtPercent := fun _ => "" }

/-- The freshly initialised orchestrator state: all tables empty. -/
def emptyRAG : RAGState :=
  { prompts := [], chunks := [], memory := [], vs := emptyVS }

/-! ## Library of proofs about the embedded definitions -/

theorem foldl_append_singleton (l : List Char) (acc : String) :
    List.foldl (· ++ ·) acc (l.map String.singleton) = acc ++ String.mk l := by
  induction l generalizing acc with
  | nil =>
    show acc = acc ++ String.mk []
    apply String.ext
    simp [String.data_append]
  | cons c cs ih =>
    show List.foldl (· ++ ·) (acc ++ String.singleton c) (cs.map String.singleton)
        = acc ++ String.mk (c :: cs)
    rw [ih]
    apply String.ext
    simp [String.data_append, String.singleton]

/-- Re-emitting a stored string one character at a time and concatenating
the characters back gives the stored string. -/
theorem concatTokens_singletons (s : String) :
    concatTokens (s.toList.map String.singleton) = s := by
  have h := foldl_append_singleton s.toList ""
  unfold concatTokens
  rw [h]
  cases s
  rfl

theorem sumSq_nonneg (v : List ℝ) : 0 ≤ sumSq v := by
  unfold sumSq
  induction v with
  | nil => simp
  | cons x xs ih =>
    simp only [List.map_cons, List.sum_cons]
    have : 0 ≤ x * x := mul_self_nonneg x
    linarith

theorem sumSq_eq_zero_of_all_zero (v : List ℝ) (h : ∀ x ∈ v, x = 0) :
    sumSq v = 0 := by
  unfold sumSq
  induction v with
  | nil => simp
  | cons x xs ih =>
    simp only [List.map_cons, List.sum_cons]
    have hx : x = 0 := h x (List.mem_cons_self x xs)
    have hxs : ∀ y ∈ xs, y = 0 := fun y hy => h y (List.mem_cons_of_mem x hy)
    rw [hx, ih hxs]
    ring

theorem chunkFrom_drop_flatten (size overlap : ℕ) (hlt : overlap < size)
    (text : List Char) (start : ℕ) :
    ((chunkFrom size overlap hlt text start).map (List.drop overlap)).flatten
      = text.drop (start + overlap) := by
  rw [chunkFrom]
  by_cases h : start < text.length
  · simp only [dif_pos h]
    set e := min (start + size) text.length with he_def
    have hstart_lt : start < e := by omega
    by_cases he : e < text.length
    · have hes : e = start + size := by omega
      simp only [dif_pos he, List.map_cons, List.flatten_cons]
      have ih := chunkFrom_drop_flatten size overlap hlt text (e - overlap)
      rw [ih]
      have h1 : e - overlap + overlap = e := by omega
      rw [h1]
      have h2 : ((text.drop start).take (e - start)).drop overlap
          = (text.drop (start + overlap)).take (e - (start + overlap)) := by
        rw [List.drop_take, List.drop_drop]
        congr 1
        omega
      rw [h2]
      have h3 : text.drop e = ((text.drop (start + overlap)).drop (e - (start + overlap))) := by
        rw [List.drop_drop]
        congr 1
        omega
      rw [h3, List.take_append_drop]
    · have hee : e = text.length := by omega
      simp only [dif_neg he, List.map_cons, List.flatten_cons]
      have ih := chunkFrom_drop_flatten size overlap hlt text e
      rw [ih]
      have h1 : text.drop (e + overlap) = [] := by
        apply List.drop_eq_nil_of_le
        omega
      rw [h1, List.append_nil]
      have h2 : (text.drop start).take (e - start) = text.drop start := by
        apply List.take_of_length_le
        rw [List.length_drop]
        omega
      rw [h2, List.drop_drop]
  · simp only [dif_neg h, List.map_nil, List.flatten_nil]
    have : text.drop (start + overlap) = [] := by
      apply List.drop_eq_nil_of_le
      omega
    rw [this]
termination_by text.length - start
decreasing_by
  all_goals omega

theorem chunkFrom_covers (size overlap : ℕ) (hlt : overlap < size)
    (text : List Char) :
    joinWithOverlap overlap (chunkFrom size overlap hlt text 0) = text := by
  rw [chunkFrom]
  by_cases h : 0 < text.length
  · simp only [dif_pos h]
    set e := min (0 + size) text.length with he_def
    have he_le : e ≤ text.length := min_le_right _ _
    by_cases he : e < text.length
    · simp only [dif_pos he, joinWithOverlap]
      have ih := chunkFrom_drop_flatten size overlap hlt text (e - overlap)
      rw [ih]
      have hes : e = size := by omega
      have h1 : e - overlap + overlap = e := by omega
      rw [h1]
      have h2 : (text.drop 0).take (e - 0) = text.take e := by
        simp
      rw [h2, List.take_append_drop]
    · have hee : e = text.length := by omega
      simp only [dif_neg he, joinWithOverlap]
      have ih := chunkFrom_drop_flatten size overlap hlt text e
      rw [ih]
      have h1 : text.drop (e + overlap) = [] := by
        apply List.drop_eq_nil_of_le
        omega
      rw [h1, List.append_nil]
      have h2 : (text.drop 0).take (e - 0) = text.take e := by simp
      rw [h2, hee, List.take_length]
  · simp only [dif_neg h, joinWithOverlap]
    have : text.length = 0 := by omega
    exact (List.eq_nil_of_length_eq_zero this).symm

theorem chunkFrom_nonempty (size overlap : ℕ) (hlt : overlap < size)
    (text : List Char) (start : ℕ) :
    ∀ c ∈ chunkFrom size overlap hlt text start, c ≠ [] := by
  rw [chunkFrom]
  by_cases h : start < text.length
  · simp only [dif_pos h]
    set e := min (start + size) text.length with he_def
    have hchunk : (text.drop start).take (e - start) ≠ [] := by
      have hlen : 0 < ((text.drop start).take (e - start)).length := by
        rw [List.length_take, List.length_drop]
        omega
      intro hc
      rw [hc] at hlen
      simp at hlen
    by_cases he : e < text.length
    · simp only [dif_pos he]
      intro c hc
      rcases List.mem_cons.mp hc with h1 | h1
      · rw [h1]; exact hchunk
      · exact chunkFrom_nonempty size overlap hlt text (e - overlap) c h1
    · simp only [dif_neg he]
      intro c hc
      rcases List.mem_cons.mp hc with h1 | h1
      · rw [h1]; exact hchunk
      · exact chunkFrom_nonempty size overlap hlt text e c h1
  · simp only [dif_neg h]
    intro c hc
    exact absurd hc (List.not_mem_nil c)
termination_by text.length - start
decreasing_by
  all_goals omega

/-! ## Claim C8: termination and coverage of the chunking loop -/

/-- C8: for every document text the chunking loop of `build_from_folder`
terminates (the recursion below is well-founded precisely because the
configured overlap 200 is strictly below the window length 1000, each
iteration strictly increasing the window start), and the finitely many
overlapping windows it produces cover the whole text: the first window
followed by the post-overlap part of each later window reassembles the
document exactly, and every window is non-empty. -/
theorem chunking_terminates_and_covers (text : String) :
    joinWithOverlap chunk_overlap (makeChunks text.toList) = text.toList ∧
    ∀ c ∈ makeChunks text.toList, c ≠ [] := by
  constructor
  · exact chunkFrom_covers chunk_size chunk_overlap (by decide) text.toList
  · exact chunkFrom_nonempty chunk_size chunk_overlap (by decide) text.toList 0

/-! ## Claim C9: the zero-norm guard of `cosine_similarity` -/

/-- C9: for every pair of vectors of which at least one has zero magnitude
(all components zero, hence Euclidean norm zero), `cosine_similarity`
returns exactly `0`: the zero-norm guard fires and the division branch is
not taken. -/
theorem cosine_similarity_zero_vector (v1 v2 : List ℝ)
    (h : (∀ x ∈ v1, x = 0) ∨ (∀ x ∈ v2, x = 0)) :
    cosine_similarity v1 v2 = 0 := by
  unfold cosine_similarity
  rcases h with h | h
  · have hs : sumSq v1 = 0 := sumSq_eq_zero_of_all_zero v1 h
    have : Real.sqrt (sumSq v1) = 0 := by rw [hs, Real.sqrt_zero]
    rw [if_pos (Or.inl this)]
  · have hs : sumSq v2 = 0 := sumSq_eq_zero_of_all_zero v2 h
    have : Real.sqrt (sumSq v2) = 0 := by rw [hs, Real.sqrt_zero]
    rw [if_pos (Or.inr this)]

theorem cosine_similarity_zero_vector_witness :
    cosine_similarity [0, 0] [1, 2] = 0 :=
  cosine_similarity_zero_vector [0, 0] [1, 2]
    (Or.inl (by
      intro x hx
      rcases List.mem_cons.mp hx with h | h
      · exact h
      · simpa using h))

/-! ## Claim C1: the prompt-cache key -/

theorem cache_response_dup (hash : String → String) (table : List CachedPrompt)
    (query context response model_id : String) (tokens_saved now : ℕ)
    (h : table.any (fun r => r.query_hash == hash query) = true) :
    cache_response hash table query context response model_id tokens_saved now
      = (table, false) := by
  simp [cache_response, h]

theorem cache_response_new (hash : String → String) (table : List CachedPrompt)
    (query context response model_id : String) (tokens_saved now : ℕ)
    (h1 : context ≠ "")
    (h2 : table.any (fun r => r.query_hash == hash query) = false) :
    cache_response hash table query context response model_id tokens_saved now
      = (table ++ [{ query_hash := hash query, query := query,
                     context_hash := some (hash context), context := context,
                     response := response, model_id := model_id,
                     tokens_saved := tokens_saved, created_at := now,
                     last_accessed := now, access_count := 1 }], true) := by
  simp [cache_response, h1, h2]

theorem cache_response_fst_cases (hash : String → String) (table : List CachedPrompt)
    (query context response model_id : String) (tokens_saved now : ℕ) :
    (cache_response hash table query context response model_id tokens_saved now).1 = table ∨
    ((table.any (fun r => r.query_hash == hash query) = false) ∧
     (cache_response hash table query context response model_id tokens_saved now).1
       = table ++ [{ query_hash := hash query, query := query,
                     context_hash := some (hash context), context := context,
                     response := response, model_id := model_id,
                     tokens_saved := tokens_saved, created_at := now,
                     last_accessed := now, access_count := 1 }]) := by
  by_cases h1 : context = ""
  · left
    simp [cache_response, h1]
  · by_cases h2 : table.any (fun r => r.query_hash == hash query) = true
    · left
      rw [cache_response_dup hash table query context response model_id tokens_saved now h2]
    · right
      rw [Bool.not_eq_true] at h2
      exact ⟨h2, by rw [cache_response_new hash table query context response model_id
        tokens_saved now h1 h2]⟩

theorem get_cached_response_fst_cases (hash : String → String)
    (table : List CachedPrompt) (query context : String) (now : ℕ) :
    (get_cached_response hash table query context now).1 = table ∨
    (get_cached_response hash table query context now).1
      = table.map (fun row => if row.query_hash == hash query then
          { row with last_accessed := now, access_count := row.access_count + 1 }
        else row) := by
  unfold get_cached_response
  by_cases hc : context = ""
  · simp only [hc, if_pos]
    split
    · right
      rfl
    · left
      rfl
  · simp only [if_neg hc]
    split
    · right
      rfl
    · left
      rfl

theorem pcReach_pairwise_query_hash (hash : String → String)
    (table : List CachedPrompt) (h : PCReach hash table) :
    table.Pairwise (fun a b => a.query_hash ≠ b.query_hash) := by
  induction h with
  | init => exact List.Pairwise.nil
  | put table query context response model_id tokens_saved now h ih =>
      rcases cache_response_fst_cases hash table query context response model_id
        tokens_saved now with heq | ⟨hany, heq⟩
      · rw [heq]; exact ih
      · rw [heq, List.pairwise_append]
        refine ⟨ih, List.pairwise_singleton _ _, ?_⟩
        intro a ha b hb
        rcases List.mem_singleton.mp hb with rfl
        rw [List.any_eq_false] at hany
        have := hany a ha
        simpa using this
  | get table query context now h ih =>
      rcases get_cached_response_fst_cases hash table query context now with heq | heq
      · rw [heq]; exact ih
      · rw [heq, List.pairwise_map]
        refine ih.imp ?_
        intro a b hab
        by_cases ha : a.query_hash == hash query <;>
          by_cases hb : b.query_hash == hash query <;>
          simp [ha, hb, hab]
  | clear table chunks older_than now h ih =>
      unfold clear_cache
      cases older_than with
      | some d => exact ih.filter _
      | none => exact List.Pairwise.nil

/-- C1 counterexample: the schema enforces `UNIQUE` on `query_hash` alone,
so after caching `("q", "c1")` a second `cache_response` for the same
query text with the different context `"c2"` is rejected: it returns
`false`, the table still holds a single row, and a lookup for
`("q", "c2")` misses.  The claimed coexistence of two retrievable rows
for the same query with different contexts does not hold. -/
theorem cache_pair_key_counterexample :
    (cache_response id ((cache_response id [] "q" "c1" "r1" "m" 0 0).1)
        "q" "c2" "r2" "m" 0 1).2 = false ∧
    (cache_response id ((cache_response id [] "q" "c1" "r1" "m" 0 0).1)
        "q" "c2" "r2" "m" 0 1).1.length = 1 ∧
    (get_cached_response id
        ((cache_response id ((cache_response id [] "q" "c1" "r1" "m" 0 0).1)
          "q" "c2" "r2" "m" 0 1).1) "q" "c2" 2).2 = none := by
  decide

/-- C1 as amended: in every reachable state of the `cached_prompts` table
there is at most one row per `query_hash` alone (hence a fortiori at most
one row per `(query_hash, context_hash)` pair), and a `cache_response`
for a query whose hash is already present — in particular a put of
`(query, context2)` after a put of `(query, context1)` — is a no-op
returning `false`, so a context-less entry and a with-context entry for
the same query text can never coexist. -/
theorem cache_unique_per_query_hash (hash : String → String)
    (table : List CachedPrompt) (h : PCReach hash table) :
    table.Pairwise (fun a b => a.query_hash ≠ b.query_hash) ∧
    table.Pairwise (fun a b =>
      ¬ (a.query_hash = b.query_hash ∧ a.context_hash = b.context_hash)) ∧
    ∀ query context response model_id tokens_saved now,
      (∃ r ∈ table, r.query_hash = hash query) →
      cache_response hash table query context response model_id tokens_saved now
        = (table, false) := by
  refine ⟨pcReach_pairwise_query_hash hash table h,
    (pcReach_pairwise_query_hash hash table h).imp ?_, ?_⟩
  · intro a b hab
    intro ⟨h1, _⟩
    exact hab h1
  intro query context response model_id tokens_saved now hex
  apply cache_response_dup
  rw [List.any_eq_true]
  rcases hex with ⟨r, hr, hq⟩
  exact ⟨r, hr, by simpa using hq⟩

theorem cache_unique_per_query_hash_witness :
    ((cache_response id ((get_cached_response id
        ((cache_response id [] "q" "c1" "r1" "m" 0 0).1) "q" "" 1).1)
      "q" "c2" "r2" "m" 0 2) =
        ((get_cached_response id
          ((cache_response id [] "q" "c1" "r1" "m" 0 0).1) "q" "" 1).1, false)) :=
  (cache_unique_per_query_hash id _
      (PCReach.get _ "q" "" 1 (PCReach.put [] "q" "c1" "r1" "m" 0 0 PCReach.init))).2.2
    "q" "c2" "r2" "m" 0 2 (by decide)

/-! ## Claim C4: prompt-cache put/get correctness -/

theorem cache_response_true_elim (hash : String → String) (table : List CachedPrompt)
    (query context response model_id : String) (tokens_saved now : ℕ)
    (hput : (cache_response hash table query context response model_id tokens_saved now).2 = true) :
    context ≠ "" ∧ table.any (fun r => r.query_hash == hash query) = false ∧
    (cache_response hash table query context response model_id tokens_saved now).1
      = table ++ [{ query_hash := hash query, query := query,
                    context_hash := some (hash context), context := context,
                    response := response, model_id := model_id,
                    tokens_saved := tokens_saved, created_at := now,
                    last_accessed := now, access_count := 1 }] := by
  by_cases h1 : context = ""
  · exfalso
    simp [cache_response, h1] at hput
  · by_cases h2 : table.any (fun r => r.query_hash == hash query) = true
    · exfalso
      rw [cache_response_dup hash table query context response model_id tokens_saved now h2] at hput
      simp at hput
    · rw [Bool.not_eq_true] at h2
      exact ⟨h1, h2, by
        rw [cache_response_new hash table query context response model_id tokens_saved now h1 h2]⟩

theorem get_cached_response_ctx_hit (hash : String → String)
    (table : List CachedPrompt) (query context : String) (now : ℕ)
    (r : CachedPrompt) (hc : context ≠ "")
    (hf : table.find? (fun row =>
        row.query_hash == hash query && row.context_hash == some (hash context)) = some r) :
    get_cached_response hash table query context now =
      (table.map (fun row => if row.query_hash == hash query then
          { row with last_accessed := now, access_count := row.access_count + 1 }
        else row),
       some { response := r.response, tokens_saved := r.tokens_saved,
              access_count := r.access_count, cached := true }) := by
  simp [get_cached_response, hc, hf]

theorem get_cached_response_ctx_miss (hash : String → String)
    (table : List CachedPrompt) (query context : String) (now : ℕ)
    (hc : context ≠ "")
    (hf : table.find? (fun row =>
        row.query_hash == hash query && row.context_hash == some (hash context)) = none) :
    get_cached_response hash table query context now = (table, none) := by
  simp [get_cached_response, hc, hf]

theorem get_cached_response_noctx_hit (hash : String → String)
    (table : List CachedPrompt) (query : String) (now : ℕ)
    (r : CachedPrompt)
    (hf : table.find? (fun row => row.query_hash == hash query) = some r) :
    get_cached_response hash table query "" now =
      (table.map (fun row => if row.query_hash == hash query then
          { row with last_accessed := now, access_count := row.access_count + 1 }
        else row),
       some { response := r.response, tokens_saved := r.tokens_saved,
              access_count := r.access_count, cached := true }) := by
  simp [get_cached_response, hf]

theorem get_cached_response_noctx_miss (hash : String → String)
    (table : List CachedPrompt) (query : String) (now : ℕ)
    (hf : table.find? (fun row => row.query_hash == hash query) = none) :
    get_cached_response hash table query "" now = (table, none) := by
  simp [get_cached_response, hf]

/-- C4: for a `(query, context)` pair with non-empty context, after one
successful `cache_response` a `get_cached_response` with the same query
and context returns exactly the stored response with its recorded
`tokens_saved`, and bumps the entry's `access_count` (and `last_accessed`)
in the table; a second `cache_response` with a different response for the
same key is ignored, leaving the first response retrievable; and a get
for a context never stored with this query returns the explicit
not-found signal `none`, never a default value. -/
theorem cache_put_get_roundtrip (hash : String → String)
    (hinj : Function.Injective hash) (table : List CachedPrompt)
    (query context response model_id : String) (tokens_saved now now2 : ℕ)
    (hput : (cache_response hash table query context response model_id tokens_saved now).2 = true) :
    (get_cached_response hash
        (cache_response hash table query context response model_id tokens_saved now).1
        query context now2).2 =
      some { response := response, tokens_saved := tokens_saved,
             access_count := 1, cached := true } ∧
    (get_cached_response hash
        (cache_response hash table query context response model_id tokens_saved now).1
        query context now2).1 =
      table ++ [{ query_hash := hash query, query := query,
                  context_hash := some (hash context), context := context,
                  response := response, model_id := model_id,
                  tokens_saved := tokens_saved, created_at := now,
                  last_accessed := now2, access_count := 2 }] ∧
    (∀ response2 tokens2 now3,
      cache_response hash
        (cache_response hash table query context response model_id tokens_saved now).1
        query context response2 model_id tokens2 now3 =
      ((cache_response hash table query context response model_id tokens_saved now).1, false)) ∧
    (∀ context2, context2 ≠ "" → context2 ≠ context →
      get_cached_response hash
        (cache_response hash table query context response model_id tokens_saved now).1
        query context2 now2 =
      ((cache_response hash table query context response model_id tokens_saved now).1, none)) := by
  obtain ⟨hc, hany, heq⟩ := cache_response_true_elim hash table query context response
    model_id tokens_saved now hput
  rw [List.any_eq_false] at hany
  set row : CachedPrompt :=
    { query_hash := hash query, query := query,
      context_hash := some (hash context), context := context,
      response := response, model_id := model_id,
      tokens_saved := tokens_saved, created_at := now,
      last_accessed := now, access_count := 1 } with hrow
  have hnotq : ∀ r ∈ table, ¬ (r.query_hash == hash query) = true := by
    intro r hr
    exact hany r hr
  have hfind : (table ++ [row]).find?
      (fun r => r.query_hash == hash query && r.context_hash == some (hash context))
        = some row := by
    rw [List.find?_append]
    have h1 : table.find?
        (fun r => r.query_hash == hash query && r.context_hash == some (hash context)) = none := by
      rw [List.find?_eq_none]
      intro x hx
      simp only [Bool.and_eq_true]
      intro ⟨hq, _⟩
      exact hnotq x hx hq
    rw [h1]
    simp [hrow]
  have hget := get_cached_response_ctx_hit hash (table ++ [row]) query context now2 row hc hfind
  have hmap : (table ++ [row]).map (fun r => if r.query_hash == hash query then
      { r with last_accessed := now2, access_count := r.access_count + 1 }
    else r) = table ++ [{ row with last_accessed := now2, access_count := 2 }] := by
    rw [List.map_append]
    congr 1
    · calc table.map (fun r => if r.query_hash == hash query then
              { r with last_accessed := now2, access_count := r.access_count + 1 }
            else r)
          = table.map id := by
            apply List.map_congr_left
            intro r hr
            rw [if_neg]
            · rfl
            · intro hq
              exact hnotq r hr hq
      _ = table := List.map_id table
    · simp [hrow]
  refine ⟨?_, ?_, ?_, ?_⟩
  · rw [heq, hget]
  · rw [heq, hget]
    show _ = table ++ _
    rw [hmap]
  · intro response2 tokens2 now3
    rw [heq]
    apply cache_response_dup
    rw [List.any_eq_true]
    refine ⟨row, List.mem_append_right _ (List.mem_singleton_self row), ?_⟩
    simp [hrow]
  · intro context2 hc2 hne
    rw [heq]
    apply get_cached_response_ctx_miss hash _ query context2 now2 hc2
    rw [List.find?_eq_none]
    intro x hx
    simp only [Bool.and_eq_true]
    intro ⟨hq, hch⟩
    rcases List.mem_append.mp hx with hmem | hmem
    · exact hnotq x hmem hq
    · rcases List.mem_singleton.mp hmem with rfl
      rw [hrow] at hch
      simp only [beq_iff_eq, Option.some_inj] at hch
      exact hne (hinj hch.symm)

theorem cache_put_get_roundtrip_witness :
    (get_cached_response id
        ((cache_response id [] "a" "b" "r" "m" 7 0).1) "a" "b" 5).2 =
      some { response := "r", tokens_saved := 7, access_count := 1, cached := true } :=
  (cache_put_get_roundtrip id (fun _ _ hxy => hxy) [] "a" "b" "r" "m" 7 0 5 (by decide)).1

/-! ## Claim C10: `clear_all_caches` is not a full memory wipe -/

/-- C10: `clear_all_caches` deletes the vector index and every prompt-cache
row (both tables), but from the context memory store it removes only
entries with `access_count` below the fixed low-usage threshold `5`:
for every store state, memory entries with `access_count ≥ 5` survive the
call unchanged (the sweep is `cleanup_old_contexts(days=0)`, whose `DELETE`
also requires `access_count < 5`). -/
theorem clear_all_caches_partial_memory (st : RAGState) (now : ℕ) :
    (clear_all_caches st now).prompts = [] ∧
    (clear_all_caches st now).chunks = [] ∧
    (clear_all_caches st now).vs = emptyVS ∧
    (∀ r ∈ st.memory, 5 ≤ r.access_count → r ∈ (clear_all_caches st now).memory) ∧
    (∀ r ∈ (clear_all_caches st now).memory, r ∈ st.memory) ∧
    (∀ r ∈ st.memory, r ∉ (clear_all_caches st now).memory → r.access_count < 5) := by
  refine ⟨rfl, rfl, rfl, ?_, ?_, ?_⟩
  · intro r hr h5
    show r ∈ st.memory.filter _
    rw [List.mem_filter]
    refine ⟨hr, ?_⟩
    simp only [decide_eq_true_eq]
    intro ⟨_, hlow⟩
    omega
  · intro r hr
    exact List.mem_of_mem_filter hr
  · intro r hr hnot
    by_contra hge
    push_neg at hge
    exact hnot (by
      show r ∈ st.memory.filter _
      rw [List.mem_filter]
      refine ⟨hr, ?_⟩
      simp only [decide_eq_true_eq]
      intro ⟨_, hlow⟩
      omega)

theorem clear_all_caches_partial_memory_witness :
    ({ id := 1, query_hash := "q", query := "q", context_hash := "c",
       context := "c", response := "r", metadata := none, tags := [],
       created_at := 0, last_accessed := 0, access_count := 5,
       confidence_score := 1/2, model_id := none } : MemoryRow) ∈
      (clear_all_caches
        { prompts := [], chunks := [],
          memory := [{ id := 1, query_hash := "q", query := "q", context_hash := "c",
                       context := "c", response := "r", metadata := none, tags := [],
                       created_at := 0, last_accessed := 0, access_count := 5,
                       confidence_score := 1/2, model_id := none }],
          vs := emptyVS } 10).memory :=
  (clear_all_caches_partial_memory _ 10).2.2.2.1 _ (List.mem_singleton_self _) (by decide)

/-! ## Generic facts about `topBy` (stable sort + limit) -/

theorem topBy_spec {α : Type} (le : α → α → Bool)
    (htrans : ∀ a b c, le a b = true → le b c = true → le a c = true)
    (htotal : ∀ a b, (le a b || le b a) = true)
    (l : List α) (k : ℕ) :
    ∃ L, topBy le l k = L.take k ∧ L.Perm l ∧
      L.Pairwise (fun a b => le a b = true) ∧
      (∀ a b, [a, b].Sublist l → le a b = true → [a, b].Sublist L) := by
  refine ⟨l.mergeSort le, rfl, List.mergeSort_perm l le, ?_, ?_⟩
  · exact List.sorted_mergeSort htrans htotal l
  · intro a b hsub hle
    apply List.sublist_mergeSort htrans htotal _ hsub
    exact List.pairwise_pair.mpr hle

theorem pairwise_cross_take_drop {α : Type} (R : α → α → Prop) (l : List α)
    (k : ℕ) (h : l.Pairwise R) :
    ∀ a ∈ l.take k, ∀ b ∈ l.drop k, R a b := by
  rw [← List.take_append_drop k l] at h
  exact (List.pairwise_append.mp h).2.2

theorem pairwise_topBy {α : Type} (le : α → α → Bool)
    (htrans : ∀ a b c, le a b = true → le b c = true → le a c = true)
    (htotal : ∀ a b, (le a b || le b a) = true)
    (l : List α) (k : ℕ) :
    (topBy le l k).Pairwise (fun a b => le a b = true) :=
  List.Pairwise.sublist (List.take_sublist k _) (List.sorted_mergeSort htrans htotal l)

theorem topBy_mem {α : Type} (le : α → α → Bool) (l : List α) (k : ℕ) :
    ∀ a ∈ topBy le l k, a ∈ l := by
  intro a ha
  exact (List.mergeSort_perm l le).mem_iff.mp ((List.take_sublist k _).mem ha)

theorem topBy_eq_nil_iff {α : Type} (le : α → α → Bool) (l : List α) (k : ℕ) :
    topBy le l k = [] ↔ k = 0 ∨ l = [] := by
  unfold topBy
  rw [List.take_eq_nil_iff]
  constructor
  · intro h
    rcases h with h | h
    · exact Or.inl h
    · right
      have := (List.mergeSort_perm l le).length_eq
      rw [h] at this
      exact List.eq_nil_of_length_eq_zero this.symm
  · intro h
    rcases h with h | h
    · exact Or.inl h
    · right
      rw [h, List.mergeSort_nil]

/-! ## Claim C7: `retrieve_similar_contexts` -/

theorem leAccessConf_trans : ∀ a b c, leAccessConf a b = true →
    leAccessConf b c = true → leAccessConf a c = true := by
  intro a b c hab hbc
  simp only [leAccessConf, decide_eq_true_eq] at hab hbc ⊢
  rcases hab with h1 | ⟨h1, h2⟩ <;> rcases hbc with h3 | ⟨h3, h4⟩
  · left; omega
  · left; omega
  · left; omega
  · right; exact ⟨by omega, le_trans h4 h2⟩

theorem leAccessConf_total : ∀ a b, (leAccessConf a b || leAccessConf b a) = true := by
  intro a b
  simp only [leAccessConf, Bool.or_eq_true, decide_eq_true_eq]
  rcases lt_trichotomy a.access_count b.access_count with h | h | h
  · right; left; omega
  · rcases le_total b.confidence_score a.confidence_score with hc | hc
    · left; right; exact ⟨h, hc⟩
    · right; right; exact ⟨h.symm, hc⟩
  · left; left; omega

theorem leRecency_trans : ∀ a b c, leRecency a b = true →
    leRecency b c = true → leRecency a c = true := by
  intro a b c hab hbc
  simp only [leRecency, decide_eq_true_eq] at hab hbc ⊢
  rcases hab with h1 | ⟨h1, h2⟩ <;> rcases hbc with h3 | ⟨h3, h4⟩
  · left; omega
  · left; omega
  · left; omega
  · right; omega

theorem leRecency_total : ∀ a b, (leRecency a b || leRecency b a) = true := by
  intro a b
  simp only [leRecency, Bool.or_eq_true, decide_eq_true_eq]
  omega

/-- C7: `retrieve_similar_contexts` first attempts an exact query-hash
match above the confidence floor ordered by `(access_count desc,
confidence_score desc)`; exactly when that result set is empty — i.e. when
no exact match above the floor exists (or the limit is zero) — it falls
back to the `limit` most recently accessed entries above the floor ordered
by `(last_accessed desc, access_count desc)`.  It is a total function
(never raises) and returns the empty sequence on an empty store. -/
theorem retrieve_similar_spec (hash : String → String) (table : List MemoryRow)
    (query : String) (limit : ℕ) (min_confidence : ℚ) :
    (table = [] → retrieve_similar_contexts hash table query limit min_confidence = []) ∧
    (exactBranch hash table query limit min_confidence = [] ↔
      limit = 0 ∨ ∀ r ∈ table, ¬ (r.query_hash = hash query ∧ min_confidence ≤ r.confidence_score)) ∧
    (exactBranch hash table query limit min_confidence ≠ [] →
      retrieveSimilarRows hash table query limit min_confidence
        = exactBranch hash table query limit min_confidence ∧
      (∀ r ∈ retrieveSimilarRows hash table query limit min_confidence,
        r ∈ table ∧ r.query_hash = hash query ∧ min_confidence ≤ r.confidence_score) ∧
      (retrieveSimilarRows hash table query limit min_confidence).Pairwise
        (fun a b => b.access_count < a.access_count ∨
          (a.access_count = b.access_count ∧ b.confidence_score ≤ a.confidence_score))) ∧
    (exactBranch hash table query limit min_confidence = [] →
      retrieveSimilarRows hash table query limit min_confidence
        = fallbackBranch table limit min_confidence ∧
      (∀ r ∈ retrieveSimilarRows hash table query limit min_confidence,
        r ∈ table ∧ min_confidence ≤ r.confidence_score) ∧
      (retrieveSimilarRows hash table query limit min_confidence).Pairwise
        (fun a b => b.last_accessed < a.last_accessed ∨
          (a.last_accessed = b.last_accessed ∧ b.access_count ≤ a.access_count))) ∧
    retrieve_similar_contexts hash table query limit min_confidence
      = (retrieveSimilarRows hash table query limit min_confidence).map
          MemoryRow.toContextMemory := by
  refine ⟨?_, ?_, ?_, ?_, rfl⟩
  · intro h
    subst h
    simp [retrieve_similar_contexts, retrieveSimilarRows, exactBranch, fallbackBranch,
      topBy, List.mergeSort_nil]
  · unfold exactBranch
    rw [topBy_eq_nil_iff]
    constructor
    · intro h
      rcases h with h | h
      · exact Or.inl h
      · right
        intro r hr hmatch
        have : r ∈ List.filter (fun r => r.query_hash == hash query &&
            decide (min_confidence ≤ r.confidence_score)) table := by
          rw [List.mem_filter]
          refine ⟨hr, ?_⟩
          simp only [Bool.and_eq_true, beq_iff_eq, decide_eq_true_eq]
          exact hmatch
        rw [h] at this
        exact absurd this (List.not_mem_nil r)
    · intro h
      rcases h with h | h
      · exact Or.inl h
      · right
        rw [List.filter_eq_nil_iff]
        intro r hr
        simp only [Bool.and_eq_true, beq_iff_eq, decide_eq_true_eq, not_and]
        intro h1 h2
        exact h r hr ⟨h1, h2⟩
  · intro hne
    have hrows : retrieveSimilarRows hash table query limit min_confidence
        = exactBranch hash table query limit min_confidence := by
      unfold retrieveSimilarRows
      rw [if_neg]
      simp only [List.isEmpty_iff]
      exact hne
    refine ⟨hrows, ?_, ?_⟩
    · intro r hr
      rw [hrows] at hr
      have := topBy_mem _ _ _ r hr
      rw [List.mem_filter] at this
      simp only [Bool.and_eq_true, beq_iff_eq, decide_eq_true_eq] at this
      exact ⟨this.1, this.2.1, this.2.2⟩
    · rw [hrows]
      refine (pairwise_topBy leAccessConf leAccessConf_trans leAccessConf_total _ _).imp ?_
      intro a b hab
      simpa [leAccessConf, decide_eq_true_eq] using hab
  · intro hnil
    have hrows : retrieveSimilarRows hash table query limit min_confidence
        = fallbackBranch table limit min_confidence := by
      unfold retrieveSimilarRows
      rw [if_pos]
      simp only [List.isEmpty_iff]
      exact hnil
    refine ⟨hrows, ?_, ?_⟩
    · intro r hr
      rw [hrows] at hr
      have := topBy_mem _ _ _ r hr
      rw [List.mem_filter] at this
      simp only [decide_eq_true_eq] at this
      exact this
    · rw [hrows]
      refine (pairwise_topBy leRecency leRecency_trans leRecency_total _ _).imp ?_
      intro a b hab
      simpa [leRecency, decide_eq_true_eq] using hab

theorem retrieve_similar_spec_witness :
    retrieveSimilarRows id
      [{ id := 1, query_hash := "other", query := "other", context_hash := "c",
         context := "c", response := "r", metadata := none, tags := [],
         created_at := 0, last_accessed := 3, access_count := 2,
         confidence_score := 9/10, model_id := none }] "q" 3 0 =
    fallbackBranch
      [{ id := 1, query_hash := "other", query := "other", context_hash := "c",
         context := "c", response := "r", metadata := none, tags := [],
         created_at := 0, last_accessed := 3, access_count := 2,
         confidence_score := 9/10, model_id := none }] 3 0 :=
  ((retrieve_similar_spec id _ "q" 3 0).2.2.2.1 (by
    simp [exactBranch, topBy, List.mergeSort_nil])).1

/-! ## Claim C6: `semantic_search` ordering -/

theorem searchLE_trans : ∀ a b c : String × ℝ × String, searchLE a b = true →
    searchLE b c = true → searchLE a c = true := by
  intro a b c hab hbc
  simp only [searchLE, decide_eq_true_eq] at hab hbc ⊢
  exact le_trans hbc hab

theorem searchLE_total : ∀ a b : String × ℝ × String,
    (searchLE a b || searchLE b a) = true := by
  intro a b
  simp only [searchLE, Bool.or_eq_true, decide_eq_true_eq]
  exact le_total b.2.1 a.2.1

/-- C6: if embedding the query fails (the provider's failure value is the
empty vector, which is falsy), `semantic_search` returns the empty list;
otherwise it returns the `top_k` highest-scoring chunks by cosine
similarity against the query vector in descending order with
equal-similarity chunks kept in their original insertion order: the result
is the `top_k`-prefix of a reordering `L` of the scored chunk list that is
sorted by score descending, every discarded chunk scores no higher than
every returned one, and any two chunks in descending-or-equal score order
in the original scored list keep their relative order in `L` (stability;
for tied scores both directions apply, pinning the original order). -/
theorem semantic_search_spec (embed : String → String → List ℝ)
    (store : List Entry) (query_text embed_model_id : String) (top_k : ℕ) :
    (embed embed_model_id query_text = [] →
      semantic_search embed store query_text embed_model_id top_k = []) ∧
    (embed embed_model_id query_text ≠ [] →
      ∃ L : List (String × ℝ × String),
        semantic_search embed store query_text embed_model_id top_k = L.take top_k ∧
        L.Perm (scoredOf (embed embed_model_id query_text) store) ∧
        L.Pairwise (fun a b => b.2.1 ≤ a.2.1) ∧
        (∀ a ∈ semantic_search embed store query_text embed_model_id top_k,
          ∀ b ∈ L.drop top_k, b.2.1 ≤ a.2.1) ∧
        (∀ a b, [a, b].Sublist (scoredOf (embed embed_model_id query_text) store) →
          b.2.1 ≤ a.2.1 → [a, b].Sublist L)) := by
  constructor
  · intro h
    simp [semantic_search, h]
  · intro h
    have hne : (embed embed_model_id query_text).isEmpty = false := by
      rw [List.isEmpty_eq_false_iff_exists_mem]
      rcases List.exists_mem_of_ne_nil _ h with ⟨x, hx⟩
      exact ⟨x, hx⟩
    have hsearch : semantic_search embed store query_text embed_model_id top_k
        = topBy searchLE (scoredOf (embed embed_model_id query_text) store) top_k := by
      simp [semantic_search, hne]
    obtain ⟨L, hL1, hL2, hL3, hL4⟩ := topBy_spec searchLE searchLE_trans searchLE_total
      (scoredOf (embed embed_model_id query_text) store) top_k
    have hL3' : L.Pairwise (fun a b => b.2.1 ≤ a.2.1) := by
      refine hL3.imp ?_
      intro a b hab
      simpa [searchLE, decide_eq_true_eq] using hab
    refine ⟨L, by rw [hsearch, hL1], hL2, hL3', ?_, ?_⟩
    · intro a ha b hb
      rw [hsearch, hL1] at ha
      exact pairwise_cross_take_drop _ L top_k hL3' a ha b hb
    · intro a b hsub hle
      apply hL4 a b hsub
      simpa [searchLE, decide_eq_true_eq] using hle

theorem semantic_search_spec_witness :
    semantic_search (fun _ _ => []) [] "q" "e" 3 = [] :=
  (semantic_search_spec (fun _ _ => []) [] "q" "e" 3).1 rfl

/-! ## Claim C5: change-aware, all-or-nothing indexing -/

theorem lookup_self_of_nodup (m : List (String × String))
    (h : (m.map Prod.fst).Nodup) :
    ∀ kv ∈ m, m.lookup kv.1 = some kv.2 := by
  induction m with
  | nil => simp
  | cons p rest ih =>
      obtain ⟨k, v⟩ := p
      simp only [List.map_cons, List.nodup_cons] at h
      intro kv hkv
      rcases List.mem_cons.mp hkv with rfl | hmem
      · simp [List.lookup]
      · have hne : (kv.1 == k) = false := by
          rw [beq_eq_false_iff_ne]
          intro hx
          apply h.1
          rw [← hx]
          exact List.mem_map_of_mem Prod.fst hmem
        simp only [List.lookup, hne]
        exact ih h.2 kv hmem

theorem dictEq_self (m : List (String × String))
    (h : (m.map Prod.fst).Nodup) : dictEq m m = true := by
  unfold dictEq
  rw [Bool.and_self, List.all_eq_true]
  intro kv hkv
  rw [lookup_self_of_nodup m h kv hkv]
  exact beq_self_eq_true _

theorem currentFiles_keys (hashFile : String → String)
    (folder : List (String × String)) :
    (currentFiles hashFile folder).map Prod.fst
      = (folder.filter (fun f => supportedFile f.1)).map Prod.fst := by
  unfold currentFiles
  rw [List.map_map]
  rfl

theorem is_cache_valid_rebuild (hashFile : String → String)
    (embed : String → String → List ℝ) (folder : List (String × String))
    (model : String) (hnodup : (folder.map Prod.fst).Nodup) :
    is_cache_valid hashFile (rebuildState hashFile embed folder model) folder model
      = true := by
  have hkeys : ((folder.filter (fun f => supportedFile f.1)).map Prod.fst).Nodup := by
    apply List.Nodup.sublist _ hnodup
    exact List.Sublist.map Prod.fst (List.filter_sublist folder)
  have hfiles : (rebuildState hashFile embed folder model).files
      = currentFiles hashFile folder := rfl
  unfold is_cache_valid
  rw [hfiles]
  have h1 : (rebuildState hashFile embed folder model).vectorsExist = true := rfl
  have h2 : (rebuildState hashFile embed folder model).model_id = some model := rfl
  rw [h1, h2]
  simp only [beq_self_eq_true, Bool.true_and]
  apply dictEq_self
  rw [currentFiles_keys]
  exact hkeys

/-- C5: indexing is change-aware and all-or-nothing.  (1) Given a cached
set exists on disk, `_is_cache_valid` holds if and only if the stored
per-file hash map equals the freshly computed one (as a dictionary) and
the stored embedding-model identifier equals the requested one.  (2) A
second `build_from_folder` with the unchanged folder and the same model
performs zero embedding calls and returns the same chunk set and state as
the first call.  (3) On any mismatch the result is a full rebuild that
does not depend on the prior state at all (no partial reuse): the new
state, the returned chunks and the embedding-call count (one call per
chunk of every supported non-empty file) are functions of the folder and
model alone. -/
theorem build_from_folder_idempotent (hashFile : String → String)
    (embed : String → String → List ℝ) (st0 : VSState)
    (folder : List (String × String)) (model : String)
    (hnodup : (folder.map Prod.fst).Nodup) :
    (st0.vectorsExist = true →
      (is_cache_valid hashFile st0 folder model = true ↔
        (dictEq (currentFiles hashFile folder) st0.files = true ∧
         st0.model_id = some model))) ∧
    ((build_from_folder hashFile embed
        (build_from_folder hashFile embed st0 folder model).1 folder model).2.2 = 0 ∧
     (build_from_folder hashFile embed
        (build_from_folder hashFile embed st0 folder model).1 folder model).2.1
       = (build_from_folder hashFile embed st0 folder model).2.1 ∧
     (build_from_folder hashFile embed
        (build_from_folder hashFile embed st0 folder model).1 folder model).1
       = (build_from_folder hashFile embed st0 folder model).1) ∧
    (is_cache_valid hashFile st0 folder model = false →
      build_from_folder hashFile embed st0 folder model
        = (rebuildState hashFile embed folder model,
           rebuildStore embed folder model, rebuildEmbedCalls folder)) := by
  refine ⟨?_, ?_, ?_⟩
  · intro hex
    unfold is_cache_valid
    rw [hex]
    simp only [Bool.true_and, Bool.and_eq_true, beq_iff_eq]
    constructor
    · intro ⟨h1, h2⟩
      exact ⟨h2, h1⟩
    · intro ⟨h1, h2⟩
      exact ⟨h2, h1⟩
  · by_cases hvalid : is_cache_valid hashFile st0 folder model = true
    · have hb1 : build_from_folder hashFile embed st0 folder model
          = ({ st0 with store := st0.cachedStore }, st0.cachedStore, 0) := by
        simp [build_from_folder, hvalid]
      have hvalid1 : is_cache_valid hashFile { st0 with store := st0.cachedStore }
          folder model = true := hvalid
      rw [hb1]
      simp [build_from_folder, hvalid1]
    · rw [Bool.not_eq_true] at hvalid
      have hb1 : build_from_folder hashFile embed st0 folder model
          = (rebuildState hashFile embed folder model,
             rebuildStore embed folder model, rebuildEmbedCalls folder) := by
        simp [build_from_folder, hvalid]
      have hvalid1 := is_cache_valid_rebuild hashFile embed folder model hnodup
      rw [hb1]
      have hb2 : build_from_folder hashFile embed
          (rebuildState hashFile embed folder model) folder model
          = ({ rebuildState hashFile embed folder model with
               store := (rebuildState hashFile embed folder model).cachedStore },
             (rebuildState hashFile embed folder model).cachedStore, 0) := by
        simp [build_from_folder, hvalid1]
      rw [hb2]
      exact ⟨rfl, rfl, rfl⟩
  · intro hinvalid
    simp [build_from_folder, hinvalid]

theorem build_from_folder_idempotent_witness :
    (build_from_folder (fun s => s) (fun _ _ => [])
        (build_from_folder (fun s => s) (fun _ _ => []) emptyVS
          [("a.txt", "hi")] "em").1
        [("a.txt", "hi")] "em").2.2 = 0 :=
  (build_from_folder_idempotent (fun s => s) (fun _ _ => []) emptyVS
    [("a.txt", "hi")] "em" (by decide)).2.1.1

/-! ## Claim C3: streaming/non-streaming equivalence -/

theorem map_fst_pairs {α : Type} (l : List α) (S : Stats) :
    (l.map (fun t => (t, S))).map Prod.fst = l := by
  rw [List.map_map]
  calc l.map (Prod.fst ∘ fun t => (t, S)) = l.map id := rfl
    _ = l := List.map_id l

/-- C3 as amended: for every fixed input and a deterministic embedding and
model provider, provided the model invocation does not fail (the provider
outcome is not an error string — on a failed invocation the two paths
demonstrably differ, see the counterexample), the concatenation of all
tokens yielded by `answer_with_optimization_stream` equals the single
response string returned by `answer_with_optimization`; in particular this
covers answers served from the prompt cache and from a memory exact match,
which are re-emitted one character at a time and concatenate back to the
stored string. -/
theorem streaming_matches_nonstreaming (C : Ctx) (st : RAGState)
    (model_id user_question embed_model_id : String)
    (provider_response : String) (provider_stream : List String)
    (use_cache store_memory retrieve_past_contexts : Bool) (now : ℕ)
    (hdet : concatTokens provider_stream = provider_response)
    (hok : strStartsWith provider_response "Error" = false) :
    concatTokens ((answer_with_optimization_stream C st model_id user_question
        embed_model_id provider_stream use_cache store_memory
        retrieve_past_contexts now).2.map Prod.fst)
      = (answer_with_optimization C st model_id user_question embed_model_id
        provider_response use_cache store_memory retrieve_past_contexts
        now).2.response := by
  unfold answer_with_optimization answer_with_optimization_stream
  cases hcache : (if use_cache then get_cached_response C.hash st.prompts user_question "" now
      else (st.prompts, none)).2 with
  | some hit =>
      simp only [hcache, List.map_map]
      have : (Prod.fst ∘ fun c => (String.singleton c,
          ({ streaming := true : Stats} : Stats))) = String.singleton := rfl
      rw [show (Prod.fst ∘ fun c => (String.singleton c,
        { cache_hit := true, memory_reused := false, contexts_retrieved := 0,
          tokens_saved := hit.tokens_saved,
          optimization_source := [] ++ ["prompt_cache"],
          streaming := true : Stats })) = String.singleton from rfl]
      exact concatTokens_singletons hit.response
  | none =>
      simp only [hcache]
      cases hmem : (if retrieve_past_contexts then
          retrieve_similar_contexts C.hash st.memory user_question 3 0
        else []).find? (exactMemMatch user_question) with
      | some m =>
          simp only [hmem, List.map_map]
          rw [show (Prod.fst ∘ fun c => (String.singleton c,
            if (if retrieve_past_contexts then
                retrieve_similar_contexts C.hash st.memory user_question 3 0
              else []).isEmpty then ({ streaming := true } : Stats)
            else { memory_reused := true,
                   optimization_source := [] ++ ["context_memory"],
                   streaming := true : Stats })) = String.singleton from rfl]
          exact concatTokens_singletons m.response
      | none =>
          have hinv : invoke_model_with_context provider_response
              = some provider_response := by
            simp [invoke_model_with_context, hok]
          simp only [hmem, hinv]
          rw [map_fst_pairs]
          exact hdet

theorem streaming_matches_nonstreaming_witness :
    concatTokens ((answer_with_optimization_stream ctxNoEmbed emptyRAG "m" "q" "e"
        ["he", "llo"] true true true 5).2.map Prod.fst)
      = (answer_with_optimization ctxNoEmbed emptyRAG "m" "q" "e"
        "hello" true true true 5).2.response :=
  streaming_matches_nonstreaming ctxNoEmbed emptyRAG "m" "q" "e" "hello" ["he", "llo"]
    true true true 5 (by decide) (by decide)

/-- C3 counterexample for the claim as stated (without a success
hypothesis): with a provider that deterministically fails — the
non-streaming call returns `"Error: X"`, the streaming call yields exactly
the token `"Error: X"`, so the two provider views are consistent — the
non-streaming path answers `"Error generating response"` while the
streaming path's tokens concatenate to `"Error: X"`. -/
theorem streaming_mismatch_on_provider_error :
    concatTokens ["Error: X"] = "Error: X" ∧
    ¬ (concatTokens ((answer_with_optimization_stream ctxNoEmbed emptyRAG "m" "q" "e"
        ["Error: X"] true true true 5).2.map Prod.fst)
      = (answer_with_optimization ctxNoEmbed emptyRAG "m" "q" "e"
        "Error: X" true true true 5).2.response) := by
  constructor
  · decide
  · simp only [answer_with_optimization, answer_with_optimization_stream,
      ctxNoEmbed, emptyRAG, emptyVS, get_cached_response, retrieve_similar_contexts,
      retrieveSimilarRows, exactBranch, fallbackBranch, topBy, List.mergeSort_nil,
      semantic_search, invoke_model_with_context, invoke_model_with_context_stream,
      exactMemMatch, buildCombinedContext, memoryContextParts, docContextParts,
      cacheRetrievedChunks, concatTokens, List.find?, List.filter, List.map,
      List.take, List.isEmpty, List.foldl, List.flatten, List.append_nil,
      List.nil_append, String.intercalate]
    decide

/-! ## Claim C2: write-back on provider failure -/

/-- C2, the code evaluated at the failing input.  In the non-streaming
path a provider failure is detected (`None` from the invoke helper) and
the call returns the error result with no write-back; but in the
streaming path the provider failure arrives as an ordinary `"Error: ..."`
token: the call yields exactly that token, terminates normally, and then
performs the write-back — here the context memory store (empty before the
call) gains a new entry whose stored response is the error text itself,
contradicting the claim that a failed invocation leaves the prompt cache
and the context memory store unchanged. -/
theorem stream_error_writeback :
    ((answer_with_optimization_stream ctxNoEmbed emptyRAG "m" "q" "e"
        ["Error: timeout"] true true true 5).2.map Prod.fst = ["Error: timeout"]) ∧
    emptyRAG.memory = [] ∧
    ((answer_with_optimization_stream ctxNoEmbed emptyRAG "m" "q" "e"
        ["Error: timeout"] true true true 5).1.memory.map (fun r => r.response)
      = ["Error: timeout"]) ∧
    ((answer_with_optimization ctxNoEmbed emptyRAG "m" "q" "e"
        "Error: timeout" true true true 5).2.error = true) ∧
    ((answer_with_optimization ctxNoEmbed emptyRAG "m" "q" "e"
        "Error: timeout" true true true 5).1.memory = []) ∧
    ((answer_with_optimization ctxNoEmbed emptyRAG "m" "q" "e"
        "Error: timeout" true true true 5).1.prompts = []) := by
  refine ⟨?_, rfl, ?_, ?_, ?_, ?_⟩
  · simp only [answer_with_optimization_stream,
      ctxNoEmbed, emptyRAG, emptyVS, get_cached_response, retrieve_similar_contexts,
      retrieveSimilarRows, exactBranch, fallbackBranch, topBy, List.mergeSort_nil,
      semantic_search, invoke_model_with_context_stream,
      exactMemMatch, buildCombinedContext, memoryContextParts, docContextParts,
      cacheRetrievedChunks, concatTokens, List.find?, List.filter, List.map,
      List.take, List.isEmpty, List.foldl, List.flatten, List.append_nil,
      List.nil_append, String.intercalate]
  · simp only [answer_with_optimization_stream,
      ctxNoEmbed, emptyRAG, emptyVS, get_cached_response, retrieve_similar_contexts,
      retrieveSimilarRows, exactBranch, fallbackBranch, topBy, List.mergeSort_nil,
      semantic_search, invoke_model_with_context_stream, store_context, nextId,
      cache_response, exactMemMatch, buildCombinedContext, memoryContextParts,
      docContextParts, cacheRetrievedChunks, concatTokens, List.find?, List.filter,
      List.map, List.take, List.isEmpty, List.foldl, List.flatten, List.append_nil,
      List.nil_append, String.intercalate, List.any]
    decide
  all_goals
    simp only [answer_with_optimization,
      ctxNoEmbed, emptyRAG, emptyVS, get_cached_response, retrieve_similar_contexts,
      retrieveSimilarRows, exactBranch, fallbackBranch, topBy, List.mergeSort_nil,
      semantic_search, invoke_model_with_context, strStartsWith, store_context, nextId,
      cache_response, exactMemMatch, buildCombinedContext, memoryContextParts,
      docContextParts, cacheRetrievedChunks, concatTokens, List.find?, List.filter,
      List.map, List.take, List.isEmpty, List.foldl, List.flatten, List.append_nil,
      List.nil_append, String.intercalate, List.any, List.isPrefixOf]
    try decide

end RagSpec
